import Mathlib

/-!
Shallow embedding of the Embrapa vitiviniculture sync pipeline
(`app/sync_and_process.py`) and proofs about its specification.

Modelling conventions:
* A pandas DataFrame is a list of column names plus a list of rows,
  where each row is a list of cells aligned with the column list.
* A cell is either an integer or a string (the datasets are read with
  `latin-1` text cells; numeric cells parsed by pandas become `cInt`).
* `pd.to_numeric(..., errors="coerce").fillna(0).astype(int)` is modelled
  by a decimal-literal parser followed by truncation toward zero
  (Python `astype(int)` truncates toward zero); unparseable text maps
  to `none`, which `fillna(0)` turns into `0`.
* Python dicts (`state.json` mapping, the remote listing) are modelled
  as insertion-ordered association lists with update-in-place semantics.
* Filesystem and network effects are modelled by an explicit `World`
  state plus an `Env` oracle for the outcomes of I/O (download success,
  CSV read result, SQLite write success, model-fit success).
* String primitives (`lower`, `strip`, `startswith`, ...) are modelled
  by structurally recursive functions on the character list of the
  string, covering the ASCII behaviour the datasets exercise, so that
  all definitions evaluate inside the kernel.
-/

set_option autoImplicit false

namespace Embrapa

/-! ### String primitives -/

/-- ASCII lower-casing of one character (model of `str.lower`). -/
def lowerChar (c : Char) : Char :=
  if 65 ≤ c.toNat ∧ c.toNat ≤ 90 then Char.ofNat (c.toNat + 32) else c

/-- ASCII upper-casing of one character (model of `str.upper`). -/
def upperChar (c : Char) : Char :=
  if 97 ≤ c.toNat ∧ c.toNat ≤ 122 then Char.ofNat (c.toNat - 32) else c

/-- Model of Python `str.lower()`. -/
def strLower (s : String) : String :=
  ⟨s.data.map lowerChar⟩

/-- Model of Python `str.upper()`. -/
def strUpper (s : String) : String :=
  ⟨s.data.map upperChar⟩

/-- Model of Python `str.strip()`: drop whitespace at both ends. -/
def strTrim (s : String) : String :=
  ⟨((s.data.dropWhile Char.isWhitespace).reverse.dropWhile Char.isWhitespace).reverse⟩

/-- Model of Python `str.startswith`. -/
def strStarts (s pre : String) : Bool :=
  pre.data.isPrefixOf s.data

/-- Model of Python `str.endswith`. -/
def strEnds (s suf : String) : Bool :=
  suf.data.isSuffixOf s.data

/-- Numeric value of a list of decimal digit characters. -/
def digitsVal (cs : List Char) : Nat :=
  cs.foldl (fun a c => a * 10 + (c.toNat - 48)) 0

/-- Model of Python `int(s)` on a string of decimal digits (after strip),
as produced by `astype(int)` on the four-digit year labels; non-digit
input is mapped to `0` (such input cannot occur at the call site). -/
def strToIntStrict (s : String) : Int :=
  let cs := (strTrim s).data
  if !cs.isEmpty && cs.all Char.isDigit then (digitsVal cs : Nat) else 0

/-! ### Cells and data frames -/

/-- A single table cell: integer or text, as produced by `pd.read_csv`. -/
inductive Cell where
  | cInt (n : Int)
  | cStr (s : String)
  deriving DecidableEq, Repr

/-- A pandas DataFrame: ordered column names and rows aligned with them. -/
structure Df where
  cols : List String
  rows : List (List Cell)
  deriving DecidableEq, Repr

/-- Model of `pd.to_numeric(s, errors="coerce")` followed by `astype(int)`
on a text cell: parse an optional sign, an integer part and an optional
fractional part, and truncate toward zero (Python `astype(int)` truncates
toward zero). Returns `none` when the text is not a decimal literal
(pandas would produce NaN there). -/
def parseNumTrunc (s : String) : Option Int :=
  let cs := (strTrim s).data
  let sgnRest : Bool × List Char :=
    match cs with
    | '-' :: t => (true, t)
    | '+' :: t => (false, t)
    | t => (false, t)
  let intPart := sgnRest.2.takeWhile Char.isDigit
  let rest2 := sgnRest.2.dropWhile Char.isDigit
  let ok : Bool :=
    match rest2 with
    | [] => !intPart.isEmpty
    | '.' :: frac => frac.all Char.isDigit && (!intPart.isEmpty || !frac.isEmpty)
    | _ => false
  if ok then
    let n : Int := (digitsVal intPart : Nat)
    some (if sgnRest.1 then -n else n)
  else none

/-- Model of `pd.to_numeric(x, errors="coerce").fillna(0).astype(int)` on one
cell: integers pass through, text is parsed, a failed parse becomes `0`. -/
def toNumericCoerce : Cell → Int
  | .cInt n => n
  | .cStr s => (parseNumTrunc s).getD 0

/-- A cell a year-column coercion cannot parse as a number
(`pd.to_numeric` yields NaN on it). -/
def cellUnparsable : Cell → Prop
  | .cInt _ => False
  | .cStr s => parseNumTrunc s = none

instance (c : Cell) : Decidable (cellUnparsable c) := by
  cases c with
  | cInt n => exact isFalse (fun h => h)
  | cStr s => exact inferInstanceAs (Decidable (parseNumTrunc s = none))

/-- `re.fullmatch(r"\d\d\d\d", str(c).strip())`: the trimmed column name is
exactly four digits. -/
def isYearCol (c : String) : Bool :=
  ((strTrim c).data.length == 4) && (strTrim c).data.all Char.isDigit

/-- Step 2 of `popular_sqlite`: every column whose trimmed name is four
digits has its cells coerced to integers (`to_numeric`/`fillna(0)`/
`astype(int)`); other columns are untouched. -/
def coerceYearCols (df : Df) : Df :=
  { df with
    rows := df.rows.map (fun r =>
      List.zipWith
        (fun c v => if isYearCol c then Cell.cInt (toNumericCoerce v) else v)
        df.cols r) }

/-- `nome_arquivo.lower().startswith("producao")`. -/
def isProducaoNome (nome : String) : Bool :=
  strStarts (strLower nome) "producao"

/-- `os.path.splitext(p)` base part on a plain file name: split at the
last dot unless the characters before it are all dots. -/
def splitExtBase (cs : List Char) : List Char :=
  match cs.reverse.findIdx? (· == '.') with
  | none => cs
  | some k =>
    let i := cs.length - 1 - k
    let base := cs.take i
    if base.all (· == '.') then cs else base

/-- `os.path.splitext(nome)[0].lower()`: the stored SQLite table name. -/
def tableNameOf (nome : String) : String :=
  strLower ⟨splitExtBase nome.data⟩

/-- `str(x)` on a cell, as used by `df[state_col].astype(str)`. -/
def cellToStr : Cell → String
  | .cInt n => toString n
  | .cStr s => s

/-- Step 3.1 of `popular_sqlite`: the first column whose trimmed,
lower-cased name is `uf` or `estado`. -/
def stateColOf (df : Df) : Option String :=
  df.cols.find? (fun c => strLower (strTrim c) == "uf" || strLower (strTrim c) == "estado")

/-- Index of a column name in the column list. -/
def colIdx (cols : List String) (c : String) : Option Nat :=
  cols.findIdx? (· == c)

/-- Cell of row `r` in column `c` (default blank text when absent). -/
def getCell (cols : List String) (r : List Cell) (c : String) : Cell :=
  match colIdx cols c with
  | none => Cell.cStr ""
  | some j => r.getD j (Cell.cStr "")

/-- Step 3.2: `df[df[state_col].astype(str).str.upper() == "RS"]`. -/
def filterRS (df : Df) (sc : String) : Df :=
  { df with rows := df.rows.filter (fun r => strUpper (cellToStr (getCell df.cols r sc)) == "RS") }

/-- `df.melt(id_vars, value_vars, var_name, value_name)`: output columns are
the id columns followed by the variable and value columns; output rows are
produced per value column (in `value_vars` order), and within each value
column per input row, carrying the id cells, the column label as text, and
the cell in that column. -/
def meltDf (df : Df) (idVars valueVars : List String) (varName valName : String) : Df :=
  { cols := idVars ++ [varName, valName],
    rows := (valueVars.map (fun v =>
      df.rows.map (fun r =>
        idVars.map (fun c => getCell df.cols r c) ++ [Cell.cStr v, getCell df.cols r v]))).flatten }

/-- `int(x)` as used by `astype(int)` on the melted `Ano` column, whose
values are the year-column labels (four digit strings after trimming). -/
def cellToIntStrict : Cell → Cell
  | .cInt n => .cInt n
  | .cStr s => .cInt (strToIntStrict s)

/-- Structurally recursive `mapIdx`. -/
def mapFromIdx {α : Type} (f : Nat → α → α) : Nat → List α → List α
  | _, [] => []
  | i, a :: t => f i a :: mapFromIdx f (i + 1) t

/-- `df_melted["Ano"] = df_melted["Ano"].astype(int)`. -/
def astypeIntCol (df : Df) (colName : String) : Df :=
  match colIdx df.cols colName with
  | none => df
  | some j =>
    { df with rows := df.rows.map (fun r => mapFromIdx (fun i c => if i = j then cellToIntStrict c else c) 0 r) }

/-- The pure table transformation of `popular_sqlite` (steps 2 and 3):
coerce year columns; for `producao*` files, filter to RS when a state
column exists and melt the year columns into `Ano`/`Quantidade`.
Returns `none` when `popular_sqlite` bails out (a producao file with no
year columns, which is logged and not stored). -/
def popularTransform (nome : String) (df : Df) : Option Df :=
  let df1 := coerceYearCols df
  if isProducaoNome nome then
    let df2 :=
      match stateColOf df1 with
      | some sc => filterRS df1 sc
      | none => df1
    let colAnos := df2.cols.filter isYearCol
    if colAnos.isEmpty then none
    else
      let idv :=
        match stateColOf df1 with
        | some sc => [sc]
        | none => []
      some (astypeIntCol (meltDf df2 idv colAnos "Ano" "Quantidade") "Ano")
  else some df1

/-! ### Association lists (Python dict model)

Python dicts keep insertion order; assigning to an existing key replaces
its value in place, assigning a new key appends. -/

/-- Ordered lookup (`m[k]` / `k in m`). -/
def lookupA {β : Type} : List (String × β) → String → Option β
  | [], _ => none
  | (a, b) :: t, k => if a == k then some b else lookupA t k

/-- Ordered insert-or-update (`m[k] = v`). -/
def insertA {β : Type} : List (String × β) → String → β → List (String × β)
  | [], k, v => [(k, v)]
  | (a, b) :: t, k, v => if a == k then (a, v) :: t else (a, b) :: insertA t k v

/-- Remove a key (used by the rename model of the filesystem). -/
def eraseA {β : Type} : List (String × β) → String → List (String × β)
  | [], _ => []
  | (a, b) :: t, k => if a == k then eraseA t k else (a, b) :: eraseA t k

/-- The persisted SyncState mapping: file name to last-modified string. -/
abbrev StateMap := List (String × String)

/-! ### Datetime parsing (`datetime.strptime(s, "%Y-%m-%d %H:%M")`) -/

/-- A wall-clock timestamp as parsed by `parse_datetime`. -/
structure DT where
  year : Nat
  month : Nat
  day : Nat
  hour : Nat
  minute : Nat
  deriving DecidableEq, Repr

/-- Python datetime comparison `a < b` (lexicographic on the fields). -/
def dtLt (a b : DT) : Bool :=
  a.year < b.year || (a.year == b.year &&
    (a.month < b.month || (a.month == b.month &&
      (a.day < b.day || (a.day == b.day &&
        (a.hour < b.hour || (a.hour == b.hour && a.minute < b.minute)))))))

/-- Numeric value of one digit character. -/
def digit (c : Char) : Nat := c.toNat - 48

/-- Gregorian leap year. -/
def isLeap (y : Nat) : Bool := (y % 4 == 0 && y % 100 != 0) || y % 400 == 0

/-- Days in a month, as validated by `datetime.__new__`. -/
def daysInMonth (y m : Nat) : Nat :=
  if m == 2 then (if isLeap y then 29 else 28)
  else if m == 4 || m == 6 || m == 9 || m == 11 then 30 else 31

/-- CPython `_strptime` numeric field of one or two digits: a two-digit
read in `[lo2, hi2]` wins, otherwise a one-digit read in `[lo1, hi1]`
(the following literal then has to match the leftover character, exactly
as the regex alternation backtracks). -/
def parseField (lo2 hi2 lo1 hi1 : Nat) : List Char → Option (Nat × List Char)
  | c1 :: c2 :: rest =>
    if c1.isDigit && c2.isDigit then
      let v := digit c1 * 10 + digit c2
      if lo2 ≤ v ∧ v ≤ hi2 then some (v, rest)
      else
        let v1 := digit c1
        if lo1 ≤ v1 ∧ v1 ≤ hi1 then some (v1, c2 :: rest) else none
    else if c1.isDigit then
      let v1 := digit c1
      if lo1 ≤ v1 ∧ v1 ≤ hi1 then some (v1, c2 :: rest) else none
    else none
  | [c1] =>
    if c1.isDigit then
      let v1 := digit c1
      if lo1 ≤ v1 ∧ v1 ≤ hi1 then some (v1, ([] : List Char)) else none
    else none
  | [] => none

/-- Exactly four digits (`%Y` in CPython `_strptime`). -/
def parseYear4 : List Char → Option (Nat × List Char)
  | a :: b :: c :: d :: rest =>
    if a.isDigit && b.isDigit && c.isDigit && d.isDigit then
      some (digit a * 1000 + digit b * 100 + digit c * 10 + digit d, rest)
    else none
  | _ => none

/-- A literal character of the format. -/
def expectChar (c : Char) : List Char → Option (List Char)
  | x :: rest => if x == c then some rest else none
  | [] => none

/-- Whitespace in a strptime format matches one or more whitespace chars. -/
def expectWs : List Char → Option (List Char)
  | x :: rest => if x.isWhitespace then some (rest.dropWhile Char.isWhitespace) else none
  | [] => none

/-- Model of `parse_datetime(texto)`, i.e.
`datetime.strptime(texto, "%Y-%m-%d %H:%M")`: `none` when strptime raises
`ValueError` (field out of range, wrong literal, trailing characters,
invalid calendar day, year 0000). -/
def parseDT (s : String) : Option DT := do
  let (y, r) ← parseYear4 s.data
  let r ← expectChar '-' r
  let (mo, r) ← parseField 1 12 1 9 r
  let r ← expectChar '-' r
  let (d, r) ← parseField 1 31 1 9 r
  let r ← expectWs r
  let (h, r) ← parseField 0 23 0 9 r
  let r ← expectChar ':' r
  let (mi, r) ← parseField 0 59 0 9 r
  if r.isEmpty && 1 ≤ y && d ≤ daysInMonth y mo then
    some ⟨y, mo, d, h, mi⟩
  else none

/-! ### Remote catalog (`obter_lista_remota`) -/

/-- A `<td>` cell of the remote index table: its stripped text and the
href of its first anchor, when any. -/
structure Td where
  text : String
  href : Option String

/-- Extraction of one `<tr>` of the index table: skip rows with fewer
than three cells, rows whose second cell has no link, and names not
ending in `.csv`; otherwise return the stripped name and the stripped
text of the third cell (the last-modified string). -/
def rowExtract (tds : List Td) : Option (String × String) :=
  if tds.length < 3 then none
  else
    match (tds.getD 1 ⟨"", none⟩).href with
    | none => none
    | some h =>
      let nome := strTrim h
      if strEnds (strLower nome) ".csv" then
        some (nome, strTrim (tds.getD 2 ⟨"", none⟩).text)
      else none

/-- The dict built by `obter_lista_remota` from the rows of the remote
index table: `lista[nome] = last_mod` per extracted row. -/
def obterListaRemota (rows : List (List Td)) : StateMap :=
  rows.foldl (fun acc tds =>
    match rowExtract tds with
    | none => acc
    | some p => insertA acc p.1 p.2) []

/-! ### SyncState persistence (`salvar_estado_local`) -/

/-- The state file path (directory prefixes elided). -/
def ARQUIVO_STATE : String := "app/state.json"

/-- One filesystem operation observed during a save. -/
inductive FsOp where
  | write (path content : String)
  | rename (src dst : String)
  deriving DecidableEq

/-- `json.dump` of the state mapping (entry list rendering). -/
def encodeEntries : StateMap → String
  | [] => ""
  | [(k, v)] => "\"" ++ k ++ "\": \"" ++ v ++ "\""
  | (k, v) :: t => "\"" ++ k ++ "\": \"" ++ v ++ "\", " ++ encodeEntries t

/-- The serialized state file content (braces around the entries). -/
def encodeState (m : StateMap) : String :=
  ⟨Char.ofNat 123 :: (encodeEntries m).data ++ [Char.ofNat 125]⟩

/-- `salvar_estado_local(estado)` as a filesystem trace: it opens
`ARQUIVO_STATE` for writing and dumps the JSON into it directly. -/
def salvarEstadoLocalOps (estado : StateMap) : List FsOp :=
  [FsOp.write ARQUIVO_STATE (encodeState estado)]

/-- The write-temp-then-rename pattern claimed by the spec: the trace is
a write to a temporary path followed by a rename onto the target. -/
def isAtomicSave (ops : List FsOp) (target : String) : Prop :=
  ∃ tmp content, tmp ≠ target ∧ ops = [FsOp.write tmp content, FsOp.rename tmp target]

/-- First `k` characters of a string. -/
def strTake (s : String) (k : Nat) : String := ⟨s.data.take k⟩

/-- Filesystem contents after a write of `c` to `p` is interrupted having
flushed only the first `k` characters. -/
def interruptedWrite (fs : List (String × String)) (p c : String) (k : Nat) :
    List (String × String) :=
  insertA fs p (strTake c k)

/-! ### World state and environment oracle -/

/-- The persistent state touched by one sync cycle. -/
structure World where
  stateFile : Option StateMap
  dbExists : Bool
  tables : List (String × Df)
  modelArtifact : Option (List (Int × Int))
  rawFiles : List String

/-- Outcomes of the I/O a cycle performs: the parsed remote listing, the
success of each download, the `ler_csv_embrapa` result for each staged
file (`none` when reading raises), the success of each `to_sql` write,
and the success of the Prophet fit. -/
structure Env where
  remote : StateMap
  fetchOk : String → Bool
  fetchedDf : String → Option Df
  storeOk : String → Bool
  trainOk : Bool

/-- The users table created by `criar_tabela_usuarios`. -/
def usersDf : Df :=
  ⟨["username", "hashed_password"], [[Cell.cStr "admin", Cell.cStr "bcrypt-admin123"]]⟩

/-- Whether the users table already has the `admin` row. -/
def hasAdminRow (df : Df) : Bool :=
  df.rows.any (fun r => getCell df.cols r "username" == Cell.cStr "admin")

/-- `criar_tabela_usuarios`: ensures the database and the `users` table
exist and that the `admin` row is present; touches nothing else. -/
def criarTabelaUsuarios (w : World) : World :=
  let tbl :=
    match lookupA w.tables "users" with
    | none => usersDf
    | some df =>
      if hasAdminRow df then df
      else { df with rows := df.rows ++ [[Cell.cStr "admin", Cell.cStr "bcrypt-admin123"]] }
  { w with dbExists := true, tables := insertA w.tables "users" tbl }

/-- `popular_sqlite(nome)`: missing staged file, read failure, a producao
file without year columns, and `to_sql` failure are all logged and leave
the world unchanged (the function never raises); a successful store
replaces the whole table snapshot. -/
def popularSqlite (env : Env) (nome : String) (w : World) : World :=
  if w.rawFiles.contains nome then
    match env.fetchedDf nome with
    | none => w
    | some df =>
      match popularTransform nome df with
      | none => w
      | some t =>
        if env.storeOk nome then
          { w with dbExists := true, tables := insertA w.tables (tableNameOf nome) t }
        else w
  else w

/-- Integer reading of a stored cell (model of `read_sql` typing). -/
def cellIntVal : Cell → Int
  | .cInt n => n
  | .cStr _ => 0

/-- `SELECT Ano, Quantidade FROM producao`: `none` when the stored table
lacks the two columns (the query raises, caught by the orchestrator). -/
def seriesOf (df : Df) : Option (List (Int × Int)) :=
  match colIdx df.cols "Ano", colIdx df.cols "Quantidade" with
  | some i, some j =>
    some (df.rows.map (fun r =>
      (cellIntVal (r.getD i (Cell.cStr "")), cellIntVal (r.getD j (Cell.cStr "")))))
  | _, _ => none

/-- Insertion into a sorted list of years. -/
def insertSorted (x : Int) : List Int → List Int
  | [] => [x]
  | y :: t => if x ≤ y then x :: y :: t else y :: insertSorted x t

/-- Ascending sort of the year keys (`sort_values("Ano")`). -/
def sortInts (l : List Int) : List Int := l.foldr insertSorted []

/-- Distinct year keys in first-appearance order. -/
def dedupInts (l : List Int) : List Int :=
  l.foldl (fun acc x => if acc.contains x then acc else acc ++ [x]) []

/-- `df.groupby("Ano").sum().sort_values("Ano")`: the aggregated series
the forecast model is fitted on. -/
def aggYears (ps : List (Int × Int)) : List (Int × Int) :=
  (sortInts (dedupInts (ps.map (·.1)))).map (fun y =>
    (y, ((ps.filter (fun p => p.1 == y)).map (·.2)).foldl (· + ·) 0))

/-- `treinar_modelo_forecast_rs`: returns without training when the
producao table is missing or empty; otherwise fits the model on the
aggregated series and overwrites the artifact. A fit or dump failure
(`env.trainOk = false`) propagates as an exception, which the
orchestrator catches, leaving the artifact unchanged. -/
def treinar (env : Env) (w : World) : World :=
  match lookupA w.tables "producao" with
  | none => w
  | some df =>
    match seriesOf df with
    | none => w
    | some ps =>
      if ps.isEmpty then w
      else if env.trainOk then { w with modelArtifact := some (aggYears ps) } else w

/-! ### The orchestrator (`atualizar_csvs_popular_db_e_treinar`) -/

/-- Accumulator of the per-entry loop. -/
structure LoopAcc where
  estado : StateMap
  houve : Bool
  prodAtual : Bool
  w : World
  fetchAttempts : List String
  processed : List String

/-- The shared download-and-process block of both loop branches:
`baixar_arquivo_csv(nome)`; on success record the timestamp, run
`popular_sqlite`, raise the producao flag for `producao*` names and mark
the cycle as updated; on download failure log and continue. -/
def processaEntrada (env : Env) (nome lms : String) (acc : LoopAcc) : LoopAcc :=
  let acc := { acc with fetchAttempts := acc.fetchAttempts ++ [nome] }
  if env.fetchOk nome then
    let w := { acc.w with rawFiles := acc.w.rawFiles ++ [nome] }
    let estado := insertA acc.estado nome lms
    let w := popularSqlite env nome w
    { acc with
      estado := estado
      w := w
      houve := true
      prodAtual := acc.prodAtual || isProducaoNome nome
      processed := acc.processed ++ [nome] }
  else acc

/-- One iteration of the orchestrator loop over a catalog entry:
skip entries whose remote timestamp does not parse; fetch new entries;
for known entries fetch when the recorded timestamp does not parse or
the remote one is strictly newer. -/
def procEntry (env : Env) (acc : LoopAcc) (e : String × String) : LoopAcc :=
  match parseDT e.2 with
  | none => acc
  | some dtR =>
    match lookupA acc.estado e.1 with
    | none => processaEntrada env e.1 e.2 acc
    | some s =>
      match parseDT s with
      | none => processaEntrada env e.1 e.2 acc
      | some dtL => if dtLt dtL dtR then processaEntrada env e.1 e.2 acc else acc

/-- The guard under which `procEntry` downloads and processes an entry
(extracted for the statements below). -/
def entryChangedB (estado : StateMap) (nome lms : String) : Bool :=
  match parseDT lms with
  | none => false
  | some dtR =>
    match lookupA estado nome with
    | none => true
    | some s =>
      match parseDT s with
      | none => true
      | some dtL => dtLt dtL dtR

/-- Observables of one cycle, matching the log records the source emits. -/
structure CycleLog where
  fetchAttempts : List String
  processed : List String
  retrainInvoked : Bool

/-- One run of `atualizar_csvs_popular_db_e_treinar`: state invalidation
when the database or its producao table is missing, `criar_tabela_usuarios`,
the per-entry loop, the single state save when anything was updated, and
the conditional retraining. -/
def cycle (env : Env) (w : World) : World × CycleLog :=
  let w0 :=
    if !w.dbExists then { w with stateFile := none }
    else if (lookupA w.tables "producao").isNone then { w with stateFile := none }
    else w
  let w1 := criarTabelaUsuarios w0
  let estado := w1.stateFile.getD []
  let acc := env.remote.foldl (procEntry env) ⟨estado, false, false, w1, [], []⟩
  if acc.houve then
    let w2 := { acc.w with stateFile := some acc.estado }
    if acc.prodAtual then
      (treinar env w2, ⟨acc.fetchAttempts, acc.processed, true⟩)
    else
      (w2, ⟨acc.fetchAttempts, acc.processed, false⟩)
  else
    (acc.w, ⟨acc.fetchAttempts, acc.processed, false⟩)

/-! ### Spec-side definitions (for refinement comparisons only) -/

/-- Modelled from the spec (claim C5 wording): an entry is changed iff it
is absent from SyncState or its remote timestamp parses to a datetime
strictly newer than the recorded one. -/
def claimChangedB (estado : StateMap) (nome lms : String) : Bool :=
  match lookupA estado nome with
  | none => true
  | some s =>
    match parseDT s, parseDT lms with
    | some dtL, some dtR => dtLt dtL dtR
    | _, _ => false

/-- The amended change condition: absent from SyncState, or the recorded
timestamp does not parse, or the remote timestamp is strictly newer
(always requiring the remote timestamp itself to parse). -/
def amendedChangedB (estado : StateMap) (nome lms : String) : Bool :=
  (parseDT lms).isSome &&
    (match lookupA estado nome with
     | none => true
     | some s =>
       match parseDT s, parseDT lms with
       | none, _ => true
       | some dtL, some dtR => dtLt dtL dtR
       | some _, none => false)

/-- An accent-stripping table for the Latin-1 characters the datasets
use (model of Unicode NFKD + combining-mark removal on them). -/
def accentMap : List (Char × Char) :=
  [('á', 'a'), ('à', 'a'), ('â', 'a'), ('ã', 'a'), ('ä', 'a'),
   ('é', 'e'), ('è', 'e'), ('ê', 'e'), ('ë', 'e'),
   ('í', 'i'), ('ì', 'i'), ('î', 'i'), ('ï', 'i'),
   ('ó', 'o'), ('ò', 'o'), ('ô', 'o'), ('õ', 'o'), ('ö', 'o'),
   ('ú', 'u'), ('ù', 'u'), ('û', 'u'), ('ü', 'u'), ('ç', 'c'),
   ('Á', 'A'), ('À', 'A'), ('Â', 'A'), ('Ã', 'A'), ('Ä', 'A'),
   ('É', 'E'), ('È', 'E'), ('Ê', 'E'), ('Ë', 'E'),
   ('Í', 'I'), ('Ì', 'I'), ('Î', 'I'), ('Ï', 'I'),
   ('Ó', 'O'), ('Ò', 'O'), ('Ô', 'O'), ('Õ', 'O'), ('Ö', 'O'),
   ('Ú', 'U'), ('Ù', 'U'), ('Û', 'U'), ('Ü', 'U'), ('Ç', 'C')]

/-- Accent stripping of one character. -/
def stripAccent (c : Char) : Char :=
  ((accentMap.find? (fun p => p.1 == c)).map (·.2)).getD c

/-- Collapse runs of underscores to a single underscore. -/
def squeeze : List Char → List Char
  | [] => []
  | [c] => [c]
  | a :: b :: t =>
    if a == '_' && b == '_' then squeeze (b :: t) else a :: squeeze (b :: t)

/-- Modelled from the spec (claim C6 wording): strip accents, collapse
whitespace runs to one underscore, drop remaining non-word characters,
lower-case. Used only to compare against what the code stores. -/
def specCleanColumn (s : String) : String :=
  let cs := s.data.map stripAccent
  let cs := cs.map (fun c => if c.isWhitespace then '_' else c)
  let cs := squeeze cs
  let cs := cs.filter (fun c => c.isAlphanum || c == '_')
  ⟨cs.map lowerChar⟩

/-- The loop accumulator a cycle starts from: the possibly invalidated
state file loaded into memory, cleared flags, and the world after
`criar_tabela_usuarios`. -/
def cycleStart (w : World) : LoopAcc :=
  let w0 :=
    if !w.dbExists then { w with stateFile := none }
    else if (lookupA w.tables "producao").isNone then { w with stateFile := none }
    else w
  let w1 := criarTabelaUsuarios w0
  ⟨w1.stateFile.getD [], false, false, w1, [], []⟩

/-- The accumulator after the whole per-entry loop of a cycle. -/
def cycleAcc (env : Env) (w : World) : LoopAcc :=
  env.remote.foldl (procEntry env) (cycleStart w)

/-- The keys of an association list, in order. -/
def keysA {β : Type} (m : List (String × β)) : List String := m.map (·.1)

/-! ### Association-list lemmas -/

@[simp]
theorem keysA_nil {β : Type} : keysA ([] : List (String × β)) = [] := rfl

@[simp]
theorem keysA_cons {β : Type} (a : String) (b : β) (t : List (String × β)) :
    keysA ((a, b) :: t) = a :: keysA t := rfl

theorem lookupA_insertA_self {β : Type} (m : List (String × β)) (k : String) (v : β) :
    lookupA (insertA m k v) k = some v := by
  induction m with
  | nil => simp [insertA, lookupA]
  | cons p t ih =>
    obtain ⟨a, b⟩ := p
    by_cases h : a = k
    · simp [insertA, lookupA, h]
    · simp only [insertA, lookupA]
      rw [if_neg (by simpa using h)]
      simp [lookupA, h, ih]

theorem lookupA_insertA_ne {β : Type} (m : List (String × β)) (k k' : String) (v : β)
    (h : k' ≠ k) : lookupA (insertA m k v) k' = lookupA m k' := by
  have h2 : ¬ k = k' := fun hc => h hc.symm
  induction m with
  | nil => simp [insertA, lookupA, h2]
  | cons p t ih =>
    obtain ⟨a, b⟩ := p
    by_cases ha : a = k
    · subst ha
      simp [insertA, lookupA, h2]
    · simp only [insertA]
      rw [if_neg (by simpa using ha)]
      by_cases hk : a = k'
      · simp [lookupA, hk]
      · simp [lookupA, hk, ih]

theorem lookupA_eq_none_iff {β : Type} (m : List (String × β)) (k : String) :
    lookupA m k = none ↔ k ∉ keysA m := by
  induction m with
  | nil => simp [lookupA]
  | cons p t ih =>
    obtain ⟨a, b⟩ := p
    by_cases h : a = k
    · simp [lookupA, h]
    · have h2 : ¬ k = a := fun hc => h hc.symm
      simp [lookupA, h, h2, ih]

theorem keysA_insertA {β : Type} (m : List (String × β)) (k : String) (v : β) :
    keysA (insertA m k v) = if k ∈ keysA m then keysA m else keysA m ++ [k] := by
  induction m with
  | nil => simp [insertA]
  | cons p t ih =>
    obtain ⟨a, b⟩ := p
    by_cases h : a = k
    · simp [insertA, h]
    · have h2 : ¬ k = a := fun hc => h hc.symm
      simp only [insertA]
      rw [if_neg (by simpa using h)]
      simp only [keysA_cons, List.mem_cons]
      by_cases hk : k ∈ keysA t
      · rw [ih, if_pos hk, if_pos (Or.inr hk)]
      · rw [ih, if_neg hk, if_neg (by simp [h2, hk])]
        simp

theorem nodup_keysA_insertA {β : Type} (m : List (String × β)) (k : String) (v : β)
    (h : (keysA m).Nodup) : (keysA (insertA m k v)).Nodup := by
  rw [keysA_insertA]
  by_cases hk : k ∈ keysA m
  · simpa [hk]
  · simp only [if_neg hk]
    simpa [List.nodup_append] using ⟨h, fun hc => hk hc⟩

/-- Folding entries into a dict preserves key uniqueness. -/
theorem nodup_keysA_foldl_insertA {β : Type} (l : List (String × β)) (m : List (String × β))
    (h : (keysA m).Nodup) :
    (keysA (l.foldl (fun acc p => insertA acc p.1 p.2) m)).Nodup := by
  induction l generalizing m with
  | nil => simpa
  | cons p t ih => exact ih _ (nodup_keysA_insertA _ _ _ h)

/-- Looking up a key after folding a list of assignments into a dict:
the last assignment of that key wins, else the original binding. -/
theorem lookupA_foldl_insertA {β : Type} (l : List (String × β)) (m : List (String × β))
    (k : String) :
    lookupA (l.foldl (fun acc p => insertA acc p.1 p.2) m) k =
      match l.reverse.find? (fun p => p.1 == k) with
      | some p => some p.2
      | none => lookupA m k := by
  induction l generalizing m with
  | nil => simp
  | cons p t ih =>
    rw [List.foldl_cons, ih (insertA m p.1 p.2), List.reverse_cons, List.find?_append]
    cases hf : t.reverse.find? (fun q => q.1 == k) with
    | some q => simp
    | none =>
      by_cases h : p.1 = k
      · subst h
        simp [List.find?, lookupA_insertA_self]
      · have hpk : (p.1 == k) = false := by simp [h]
        simp [List.find?, hpk, lookupA_insertA_ne _ _ _ _ (fun hc => h hc.symm)]

/-- `obter_lista_remota` as a fold of the per-row extractions. -/
theorem obterListaRemota_eq_fold (rows : List (List Td)) :
    obterListaRemota rows =
      (rows.filterMap rowExtract).foldl (fun acc p => insertA acc p.1 p.2) [] := by
  suffices h : ∀ (acc : StateMap),
      rows.foldl (fun acc tds =>
        match rowExtract tds with
        | none => acc
        | some p => insertA acc p.1 p.2) acc =
      (rows.filterMap rowExtract).foldl (fun acc p => insertA acc p.1 p.2) acc from h []
  induction rows with
  | nil => intro acc; simp
  | cons r t ih =>
    intro acc
    cases hr : rowExtract r with
    | none => simp [List.filterMap_cons, hr, ih]
    | some p => simp [List.filterMap_cons, hr, ih]

/-! ### Index lemmas for `zipWith` -/

theorem getQ_zipWith {α β γ : Type} (f : α → β → γ) (as : List α) (bs : List β) (j : Nat) :
    (List.zipWith f as bs)[j]? =
      match as[j]?, bs[j]? with
      | some a, some b => some (f a b)
      | _, _ => none := by
  induction as generalizing bs j with
  | nil => simp
  | cons a t ih =>
    cases bs with
    | nil => simp
    | cons b bt =>
      cases j with
      | zero => simp
      | succ j => simpa using ih bt j

/-! ### Loop-step characterizations -/

/-- `procEntry` unfolds to a single guarded call of the shared
download-and-process block. -/
theorem procEntry_eq (env : Env) (acc : LoopAcc) (e : String × String) :
    procEntry env acc e =
      if entryChangedB acc.estado e.1 e.2 then processaEntrada env e.1 e.2 acc else acc := by
  unfold procEntry entryChangedB
  cases hp : parseDT e.2 with
  | none => simp [hp]
  | some dtR =>
    cases hl : lookupA acc.estado e.1 with
    | none => simp [hp, hl]
    | some s =>
      cases hps : parseDT s with
      | none => simp [hp, hl, hps]
      | some dtL =>
        by_cases hlt : dtLt dtL dtR = true <;> simp [hp, hl, hps, hlt]

/-- The state mapping after one loop step: advanced to the remote
timestamp exactly when the entry is changed and its download succeeded,
independently of the parse/store outcome. -/
theorem procEntry_estado (env : Env) (acc : LoopAcc) (e : String × String) :
    (procEntry env acc e).estado =
      if entryChangedB acc.estado e.1 e.2 && env.fetchOk e.1 then
        insertA acc.estado e.1 e.2
      else acc.estado := by
  rw [procEntry_eq]
  by_cases hc : entryChangedB acc.estado e.1 e.2 = true
  · by_cases hf : env.fetchOk e.1 = true <;> simp [hc, hf, processaEntrada]
  · simp only [Bool.not_eq_true] at hc
    simp [hc]

/-- The download attempts after one loop step. -/
theorem procEntry_attempts (env : Env) (acc : LoopAcc) (e : String × String) :
    (procEntry env acc e).fetchAttempts =
      acc.fetchAttempts ++ (if entryChangedB acc.estado e.1 e.2 then [e.1] else []) := by
  rw [procEntry_eq]
  by_cases hc : entryChangedB acc.estado e.1 e.2 = true
  · by_cases hf : env.fetchOk e.1 = true <;> simp [hc, hf, processaEntrada]
  · simp only [Bool.not_eq_true] at hc
    simp [hc]

/-- The successfully downloaded (hence processed) entries after one step. -/
theorem procEntry_processed (env : Env) (acc : LoopAcc) (e : String × String) :
    (procEntry env acc e).processed =
      acc.processed ++
        (if entryChangedB acc.estado e.1 e.2 && env.fetchOk e.1 then [e.1] else []) := by
  rw [procEntry_eq]
  by_cases hc : entryChangedB acc.estado e.1 e.2 = true
  · by_cases hf : env.fetchOk e.1 = true <;> simp [hc, hf, processaEntrada]
  · simp only [Bool.not_eq_true] at hc
    simp [hc]

/-- The update flag after one loop step. -/
theorem procEntry_houve (env : Env) (acc : LoopAcc) (e : String × String) :
    (procEntry env acc e).houve =
      (acc.houve || (entryChangedB acc.estado e.1 e.2 && env.fetchOk e.1)) := by
  rw [procEntry_eq]
  by_cases hc : entryChangedB acc.estado e.1 e.2 = true
  · by_cases hf : env.fetchOk e.1 = true <;> simp [hc, hf, processaEntrada]
  · simp only [Bool.not_eq_true] at hc
    simp [hc]

/-- The producao flag after one loop step. -/
theorem procEntry_prodAtual (env : Env) (acc : LoopAcc) (e : String × String) :
    (procEntry env acc e).prodAtual =
      (acc.prodAtual ||
        (entryChangedB acc.estado e.1 e.2 && env.fetchOk e.1 && isProducaoNome e.1)) := by
  rw [procEntry_eq]
  by_cases hc : entryChangedB acc.estado e.1 e.2 = true
  · by_cases hf : env.fetchOk e.1 = true <;>
      simp [hc, hf, processaEntrada, Bool.or_assoc, Bool.and_assoc]
  · simp only [Bool.not_eq_true] at hc
    simp [hc]

/-- An unchanged entry leaves the whole accumulator untouched. -/
theorem procEntry_unchanged (env : Env) (acc : LoopAcc) (e : String × String)
    (h : entryChangedB acc.estado e.1 e.2 = false) : procEntry env acc e = acc := by
  rw [procEntry_eq, h]
  simp

/-! ### Table-shape lemmas -/

theorem coerceYearCols_cols (df : Df) : (coerceYearCols df).cols = df.cols := rfl

theorem filterRS_cols (df : Df) (sc : String) : (filterRS df sc).cols = df.cols := rfl

theorem astypeIntCol_cols (df : Df) (c : String) : (astypeIntCol df c).cols = df.cols := by
  unfold astypeIntCol
  cases colIdx df.cols c <;> rfl

theorem meltDf_cols (df : Df) (idVars valueVars : List String) (varName valName : String) :
    (meltDf df idVars valueVars varName valName).cols = idVars ++ [varName, valName] := rfl

theorem encodeState_ne_empty (m : StateMap) : encodeState m ≠ "" := by
  intro h
  have hd := congrArg String.data h
  simp [encodeState] at hd

/-! ### Claim C1 -/

/-- Claim C1, counterexample: on the spec's own example (a wide producao
table with columns `[id, "2019", "2020"]` and row `[42, 100, 200]`), the
reshape does NOT retain the non-year column `id` as an identifier: the
long table has only the `Ano` and `Quantidade` columns and its rows do
not carry the value 42. -/
theorem reshape_drops_id_column :
    (popularTransform "Producao.csv"
      ⟨["id", "2019", "2020"], [[Cell.cInt 42, Cell.cInt 100, Cell.cInt 200]]⟩).map Df.cols =
      some ["Ano", "Quantidade"] ∧
    (popularTransform "Producao.csv"
      ⟨["id", "2019", "2020"], [[Cell.cInt 42, Cell.cInt 100, Cell.cInt 200]]⟩).map Df.rows =
      some [[Cell.cInt 2019, Cell.cInt 100], [Cell.cInt 2020, Cell.cInt 200]] := by
  decide

/-- Claim C1, amended: for a producao file with at least one year column,
the reshape keeps only the state column (`uf`/`estado`, when present) as
an identifier column, followed by `Ano` and `Quantidade`; every other
non-year column is dropped. -/
theorem reshape_keeps_only_state_column (nome : String) (df : Df)
    (hn : isProducaoNome nome = true)
    (hy : df.cols.filter isYearCol ≠ []) :
    ∃ t, popularTransform nome df = some t ∧
      t.cols = (stateColOf df).elim [] (fun sc => [sc]) ++ ["Ano", "Quantidade"] := by
  have hsc : stateColOf (coerceYearCols df) = stateColOf df := rfl
  have hyB : (df.cols.filter isYearCol).isEmpty = false := by
    cases hfi : df.cols.filter isYearCol with
    | nil => exact absurd hfi hy
    | cons a t => simp
  unfold popularTransform
  rw [hn]
  simp only [if_true, hsc]
  cases hst : stateColOf df with
  | none =>
    simp only [coerceYearCols_cols, hyB, Bool.false_eq_true, if_false]
    exact ⟨_, rfl, by simp [astypeIntCol_cols, meltDf_cols, hst]⟩
  | some sc =>
    simp only [filterRS_cols, coerceYearCols_cols, hyB, Bool.false_eq_true, if_false]
    exact ⟨_, rfl, by simp [astypeIntCol_cols, meltDf_cols, hst]⟩

/-- Witness for the amended C1 theorem at a concrete producao table. -/
theorem reshape_keeps_only_state_column_witness :
    ∃ t, popularTransform "Producao.csv"
        ⟨["UF", "2019"], [[Cell.cStr "RS", Cell.cInt 3]]⟩ = some t ∧
      t.cols = (stateColOf ⟨["UF", "2019"], [[Cell.cStr "RS", Cell.cInt 3]]⟩).elim []
          (fun sc => [sc]) ++ ["Ano", "Quantidade"] :=
  reshape_keeps_only_state_column "Producao.csv"
    ⟨["UF", "2019"], [[Cell.cStr "RS", Cell.cInt 3]]⟩ (by decide) (by decide)

/-! ### Claim C3 -/

/-- Claim C3, counterexample: `salvar_estado_local` is not a
write-temp-then-rename save: its filesystem trace on a concrete mapping
is a single direct write to the state file, and interrupting that write
after zero characters leaves the state file holding neither the old nor
the new content. -/
theorem salvar_estado_not_write_temp_rename :
    ¬ isAtomicSave (salvarEstadoLocalOps [("Producao.csv", "2024-01-02 03:04")]) ARQUIVO_STATE ∧
    lookupA (interruptedWrite [(ARQUIVO_STATE, "old-content")] ARQUIVO_STATE
        (encodeState [("Producao.csv", "2024-01-02 03:04")]) 0) ARQUIVO_STATE ≠
      some "old-content" ∧
    lookupA (interruptedWrite [(ARQUIVO_STATE, "old-content")] ARQUIVO_STATE
        (encodeState [("Producao.csv", "2024-01-02 03:04")]) 0) ARQUIVO_STATE ≠
      some (encodeState [("Producao.csv", "2024-01-02 03:04")]) := by
  refine ⟨?_, by decide, by decide⟩
  rintro ⟨tmp, content, hne, heq⟩
  simp [salvarEstadoLocalOps] at heq

/-- Claim C3, amended: saving the SyncState mapping writes the JSON
directly into the state file in place (a one-write trace, no temporary
file and no rename), so a save interrupted mid-write can leave the state
file with content that is neither the previous one nor the new one. -/
theorem salvar_estado_direct_overwrite (estado : StateMap) (old : String) (hold : old ≠ "") :
    salvarEstadoLocalOps estado = [FsOp.write ARQUIVO_STATE (encodeState estado)] ∧
    ¬ isAtomicSave (salvarEstadoLocalOps estado) ARQUIVO_STATE ∧
    ∃ k, lookupA (interruptedWrite [(ARQUIVO_STATE, old)] ARQUIVO_STATE (encodeState estado) k)
          ARQUIVO_STATE ≠ some old ∧
        lookupA (interruptedWrite [(ARQUIVO_STATE, old)] ARQUIVO_STATE (encodeState estado) k)
          ARQUIVO_STATE ≠ some (encodeState estado) := by
  refine ⟨rfl, ?_, 0, ?_, ?_⟩
  · rintro ⟨tmp, content, hne, heq⟩
    simp [salvarEstadoLocalOps] at heq
  · rw [interruptedWrite, lookupA_insertA_self]
    intro h
    exact hold (Option.some.inj h).symm
  · rw [interruptedWrite, lookupA_insertA_self]
    intro h
    exact encodeState_ne_empty estado (Option.some.inj h).symm

/-- Witness for the amended C3 theorem at a concrete mapping. -/
theorem salvar_estado_direct_overwrite_witness :
    salvarEstadoLocalOps [("a.csv", "2024-01-02 03:04")] =
      [FsOp.write ARQUIVO_STATE (encodeState [("a.csv", "2024-01-02 03:04")])] ∧
    ¬ isAtomicSave (salvarEstadoLocalOps [("a.csv", "2024-01-02 03:04")]) ARQUIVO_STATE ∧
    ∃ k, lookupA (interruptedWrite [(ARQUIVO_STATE, "old")] ARQUIVO_STATE
          (encodeState [("a.csv", "2024-01-02 03:04")]) k) ARQUIVO_STATE ≠ some "old" ∧
        lookupA (interruptedWrite [(ARQUIVO_STATE, "old")] ARQUIVO_STATE
          (encodeState [("a.csv", "2024-01-02 03:04")]) k) ARQUIVO_STATE ≠
          some (encodeState [("a.csv", "2024-01-02 03:04")]) :=
  salvar_estado_direct_overwrite [("a.csv", "2024-01-02 03:04")] "old" (by decide)

/-! ### Claim C4 -/

/-- Claim C4, counterexample: when the remote listing mentions `A.csv`
twice, first with timestamp 2024-05-05 10:00 and then with the older
timestamp 2020-01-01 00:00, `obter_lista_remota` returns the Later-listed
older one, not the latest of the duplicates. -/
theorem remote_listing_latest_not_kept :
    lookupA (obterListaRemota
      [[⟨"", none⟩, ⟨"", some "A.csv"⟩, ⟨"2024-05-05 10:00", none⟩],
       [⟨"", none⟩, ⟨"", some "A.csv"⟩, ⟨"2020-01-01 00:00", none⟩]]) "A.csv" =
      some "2020-01-01 00:00" ∧
    parseDT "2020-01-01 00:00" = some ⟨2020, 1, 1, 0, 0⟩ ∧
    parseDT "2024-05-05 10:00" = some ⟨2024, 5, 5, 10, 0⟩ ∧
    dtLt ⟨2020, 1, 1, 0, 0⟩ ⟨2024, 5, 5, 10, 0⟩ = true := by
  decide

/-- Claim C4, amended: the remote catalog listing returns each file name
at most once, and for a name the remote lists more than once the entry
of the LAST occurrence in listing order wins, regardless of which
occurrence carries the latest timestamp. -/
theorem remote_listing_nodup_last_wins (rows : List (List Td)) :
    (keysA (obterListaRemota rows)).Nodup ∧
    ∀ k, lookupA (obterListaRemota rows) k =
      ((rows.filterMap rowExtract).reverse.find? (fun p => p.1 == k)).map (·.2) := by
  constructor
  · rw [obterListaRemota_eq_fold]
    exact nodup_keysA_foldl_insertA _ _ (by simp)
  · intro k
    rw [obterListaRemota_eq_fold, lookupA_foldl_insertA]
    cases hf : (rows.filterMap rowExtract).reverse.find? (fun p => p.1 == k) with
    | some q => simp
    | none => simp [lookupA]

/-! ### Claim C6 -/

/-- Claim C6, counterexample: a parsed table with the accented,
capitalized column `País` is stored with that identifier verbatim; the
cleanup the claim describes would store `pais`, a different identifier.
So stored column identifiers are not cleaned before storing. -/
theorem stored_columns_not_cleaned :
    (popularTransform "Comercio.csv"
      ⟨["País", "2019"], [[Cell.cStr "Br", Cell.cStr "x"]]⟩).map Df.cols =
      some ["País", "2019"] ∧
    specCleanColumn "País" = "pais" ∧
    ("País" : String) ≠ "pais" := by
  decide

/-- Claim C6, amended: no column-identifier cleanup happens before
storing: for every non-producao file the stored table carries exactly the
parsed column names (no accent stripping, whitespace collapsing, removal
of non-word characters, or lower-casing). -/
theorem stored_columns_verbatim (nome : String) (df : Df)
    (hn : isProducaoNome nome = false) :
    ∃ t, popularTransform nome df = some t ∧ t.cols = df.cols := by
  refine ⟨coerceYearCols df, ?_, rfl⟩
  simp [popularTransform, hn]

/-- Witness for the amended C6 theorem at a concrete table. -/
theorem stored_columns_verbatim_witness :
    ∃ t, popularTransform "Comercio.csv"
        ⟨["País  Região", "2019"], [[Cell.cStr "Br", Cell.cStr "x"]]⟩ = some t ∧
      t.cols = (⟨["País  Região", "2019"], [[Cell.cStr "Br", Cell.cStr "x"]]⟩ : Df).cols :=
  stored_columns_verbatim "Comercio.csv"
    ⟨["País  Região", "2019"], [[Cell.cStr "Br", Cell.cStr "x"]]⟩ (by decide)

/-! ### Claim C8 -/

/-- Claim C8: in every column whose trimmed name is exactly four digits,
every cell is coerced to an integer cell (so no per-cell parse failure
can propagate), and a cell that cannot be parsed as a number becomes
exactly `Cell.cInt 0`. -/
theorem year_column_coercion (df : Df) (i j : Nat) (c : String) (row : List Cell) (cell : Cell)
    (hc : df.cols[j]? = some c) (hy : isYearCol c = true)
    (hrow : df.rows[i]? = some row) (hcell : row[j]? = some cell) :
    ∃ rowQ, (coerceYearCols df).rows[i]? = some rowQ ∧
      rowQ[j]? = some (Cell.cInt (toNumericCoerce cell)) ∧
      (cellUnparsable cell → rowQ[j]? = some (Cell.cInt 0)) := by
  refine ⟨List.zipWith
      (fun c v => if isYearCol c then Cell.cInt (toNumericCoerce v) else v) df.cols row,
    ?_, ?_, ?_⟩
  · simp [coerceYearCols, hrow]
  · rw [getQ_zipWith]
    simp [hc, hcell, hy]
  · intro hu
    have hz : toNumericCoerce cell = 0 := by
      cases cell with
      | cInt n => exact absurd hu (by simp [cellUnparsable])
      | cStr s =>
        simp only [cellUnparsable] at hu
        simp [toNumericCoerce, hu]
    rw [getQ_zipWith]
    simp [hc, hcell, hy, hz]

/-- Witness for C8 at a concrete table with an unparseable year cell. -/
theorem year_column_coercion_witness :
    cellUnparsable (Cell.cStr "abc") ∧
    ∃ rowQ, (coerceYearCols ⟨["x", "2019"], [[Cell.cStr "a", Cell.cStr "abc"]]⟩).rows[0]? =
        some rowQ ∧
      rowQ[1]? = some (Cell.cInt (toNumericCoerce (Cell.cStr "abc"))) ∧
      (cellUnparsable (Cell.cStr "abc") → rowQ[1]? = some (Cell.cInt 0)) :=
  ⟨by decide,
    year_column_coercion ⟨["x", "2019"], [[Cell.cStr "a", Cell.cStr "abc"]]⟩ 0 1 "2019"
      [Cell.cStr "a", Cell.cStr "abc"] (Cell.cStr "abc") (by decide) (by decide)
      (by decide) (by decide)⟩

/-! ### Cycle decomposition lemmas -/

/-- `cycle` in terms of the loop accumulator. -/
theorem cycle_unfold (env : Env) (w : World) :
    cycle env w =
      (if (cycleAcc env w).houve then
        (if (cycleAcc env w).prodAtual then
          (treinar env { (cycleAcc env w).w with stateFile := some (cycleAcc env w).estado },
            ⟨(cycleAcc env w).fetchAttempts, (cycleAcc env w).processed, true⟩)
        else
          ({ (cycleAcc env w).w with stateFile := some (cycleAcc env w).estado },
            ⟨(cycleAcc env w).fetchAttempts, (cycleAcc env w).processed, false⟩))
      else
        ((cycleAcc env w).w, ⟨(cycleAcc env w).fetchAttempts, (cycleAcc env w).processed, false⟩)) :=
  rfl

theorem criarTabelaUsuarios_stateFile (w : World) :
    (criarTabelaUsuarios w).stateFile = w.stateFile := rfl

theorem criarTabelaUsuarios_modelArtifact (w : World) :
    (criarTabelaUsuarios w).modelArtifact = w.modelArtifact := rfl

theorem criarTabelaUsuarios_tables_ne (w : World) (t : String) (h : t ≠ "users") :
    lookupA (criarTabelaUsuarios w).tables t = lookupA w.tables t := by
  unfold criarTabelaUsuarios
  exact lookupA_insertA_ne _ _ _ _ h

/-- When the database and its producao table are present, no state-file
invalidation happens at cycle start. -/
theorem cycleStart_eq_of_db (w : World) (hdb : w.dbExists = true)
    (hpt : (lookupA w.tables "producao").isSome = true) :
    cycleStart w = ⟨w.stateFile.getD [], false, false, criarTabelaUsuarios w, [], []⟩ := by
  have hn : (lookupA w.tables "producao").isNone = false := by
    cases h : lookupA w.tables "producao" with
    | none => rw [h] at hpt; simp at hpt
    | some _ => rfl
  unfold cycleStart
  rw [hdb]
  simp [hn, criarTabelaUsuarios_stateFile]

/-- A parse failure of the remote timestamp makes the entry unchanged. -/
theorem entryChangedB_of_parse_none (estado : StateMap) (nome lms : String)
    (h : parseDT lms = none) : entryChangedB estado nome lms = false := by
  simp [entryChangedB, h]

/-- Retraining never touches the persisted state file. -/
theorem treinar_stateFile (env : Env) (w : World) :
    (treinar env w).stateFile = w.stateFile := by
  unfold treinar
  split
  · rfl
  · split
    · rfl
    · split
      · rfl
      · split <;> rfl

/-- `popular_sqlite` never touches the persisted state file. -/
theorem popularSqlite_stateFile (env : Env) (nome : String) (w : World) :
    (popularSqlite env nome w).stateFile = w.stateFile := by
  unfold popularSqlite
  split
  · split
    · rfl
    · split
      · rfl
      · split <;> rfl
  · rfl

/-- One loop step never touches the state file of the in-loop world. -/
theorem procEntry_w_stateFile (env : Env) (acc : LoopAcc) (e : String × String) :
    (procEntry env acc e).w.stateFile = acc.w.stateFile := by
  rw [procEntry_eq]
  by_cases hc : entryChangedB acc.estado e.1 e.2 = true
  · rw [if_pos hc]
    unfold processaEntrada
    by_cases hf : env.fetchOk e.1 = true
    · simp [hf, popularSqlite_stateFile]
    · simp [hf]
  · simp only [Bool.not_eq_true] at hc
    simp [hc]

/-- The whole loop never touches the state file of the in-loop world. -/
theorem foldl_procEntry_w_stateFile (env : Env) (l : List (String × String)) (acc : LoopAcc) :
    (l.foldl (procEntry env) acc).w.stateFile = acc.w.stateFile := by
  induction l generalizing acc with
  | nil => rfl
  | cons e t ih =>
    rw [List.foldl_cons, ih]
    exact procEntry_w_stateFile env acc e

/-- A fold over entries none of which is changed relative to the current
state leaves the accumulator untouched. -/
theorem foldl_procEntry_no_change (env : Env) (l : List (String × String)) (acc : LoopAcc)
    (h : ∀ p ∈ l, entryChangedB acc.estado p.1 p.2 = false) :
    l.foldl (procEntry env) acc = acc := by
  induction l with
  | nil => rfl
  | cons e t ih =>
    rw [List.foldl_cons, procEntry_unchanged env acc e (h e (by simp))]
    exact ih (fun p hp => h p (by simp [hp]))

/-- The producao flag tracks whether some processed entry has a producao
name, and the update flag tracks whether anything was processed. -/
theorem foldl_procEntry_invariants (env : Env) (l : List (String × String)) (acc : LoopAcc)
    (h1 : acc.prodAtual = acc.processed.any isProducaoNome)
    (h2 : acc.houve = !acc.processed.isEmpty) :
    (l.foldl (procEntry env) acc).prodAtual =
        (l.foldl (procEntry env) acc).processed.any isProducaoNome ∧
      (l.foldl (procEntry env) acc).houve = !(l.foldl (procEntry env) acc).processed.isEmpty := by
  induction l generalizing acc with
  | nil => exact ⟨h1, h2⟩
  | cons e t ih =>
    rw [List.foldl_cons]
    refine ih (procEntry env acc e) ?_ ?_
    · rw [procEntry_prodAtual, procEntry_processed, h1]
      by_cases hc : (entryChangedB acc.estado e.1 e.2 && env.fetchOk e.1) = true
      · simp [hc, List.any_append]
      · simp only [Bool.not_eq_true] at hc
        simp [hc]
    · rw [procEntry_houve, procEntry_processed, h2]
      by_cases hc : (entryChangedB acc.estado e.1 e.2 && env.fetchOk e.1) = true
      · simp [hc]
      · simp only [Bool.not_eq_true] at hc
        simp [hc]

/-- Entries of a catalog in which every occurrence of `nome` carries an
unparseable timestamp never touch that name: its state entry, the fetch
attempts and the processed list are all preserved for it. -/
theorem foldl_procEntry_skip_key (env : Env) (l : List (String × String)) (acc : LoopAcc)
    (nome : String)
    (hall : ∀ p ∈ l, p.1 = nome → parseDT p.2 = none) :
    lookupA (l.foldl (procEntry env) acc).estado nome = lookupA acc.estado nome ∧
      (nome ∈ (l.foldl (procEntry env) acc).fetchAttempts ↔ nome ∈ acc.fetchAttempts) ∧
      (nome ∈ (l.foldl (procEntry env) acc).processed ↔ nome ∈ acc.processed) := by
  induction l generalizing acc with
  | nil => exact ⟨rfl, Iff.rfl, Iff.rfl⟩
  | cons e t ih =>
    rw [List.foldl_cons]
    by_cases hkey : e.1 = nome
    · rw [procEntry_unchanged env acc e
        (entryChangedB_of_parse_none _ _ _ (hall e (by simp) hkey))]
      exact ih acc (fun p hp => hall p (by simp [hp]))
    · have step := ih (procEntry env acc e) (fun p hp => hall p (by simp [hp]))
      have hkey2 : ¬ nome = e.1 := fun h => hkey h.symm
      refine ⟨?_, ?_, ?_⟩
      · rw [step.1, procEntry_estado]
        by_cases hc : (entryChangedB acc.estado e.1 e.2 && env.fetchOk e.1) = true
        · rw [if_pos hc, lookupA_insertA_ne _ _ _ _ hkey2]
        · simp only [Bool.not_eq_true] at hc
          rw [hc]
          simp
      · rw [step.2.1, procEntry_attempts]
        by_cases hc : entryChangedB acc.estado e.1 e.2 = true
        · simp [hc, hkey2]
        · simp only [Bool.not_eq_true] at hc
          simp [hc]
      · rw [step.2.2, procEntry_processed]
        by_cases hc : (entryChangedB acc.estado e.1 e.2 && env.fetchOk e.1) = true
        · simp [hc, hkey2]
        · simp only [Bool.not_eq_true] at hc
          simp [hc]

/-! ### Claim C2 -/

/-- Claim C2, counterexample: a changed producao entry whose download
succeeds but whose store step fails (`to_sql` reports an error) still has
its SyncState timestamp advanced, and the mapping persisted at the end of
the cycle records the new timestamp even though the entry did not succeed
end-to-end: the stored table still holds the previous snapshot. -/
theorem failed_store_still_advances_state :
    let env : Env :=
      { remote := [("Producao.csv", "2024-01-02 03:04")]
        fetchOk := fun _ => true
        fetchedDf := fun _ => some ⟨["UF", "2019"], [[Cell.cStr "RS", Cell.cInt 7]]⟩
        storeOk := fun _ => false
        trainOk := true }
    let w : World :=
      { stateFile := some []
        dbExists := true
        tables := [("producao", ⟨["Ano", "Quantidade"], [[Cell.cInt 2000, Cell.cInt 5]]⟩)]
        modelArtifact := none
        rawFiles := [] }
    env.storeOk "Producao.csv" = false ∧
    (cycle env w).1.stateFile = some [("Producao.csv", "2024-01-02 03:04")] ∧
    lookupA (cycle env w).1.tables "producao" =
      some ⟨["Ano", "Quantidade"], [[Cell.cInt 2000, Cell.cInt 5]]⟩ := by
  decide

/-- Claim C2, amended: an entry's SyncState timestamp is advanced exactly
when the entry is changed and its download succeeded; failures of the
later parse, normalize or store steps (which `popular_sqlite` swallows)
do not prevent the advancement, so the mapping persisted at the end of
the cycle records new timestamps for all successfully downloaded changed
entries, not only for those that succeeded end-to-end. -/
theorem state_advanced_iff_download_ok (env : Env) (acc : LoopAcc) (nome lms : String) :
    (procEntry env acc (nome, lms)).estado =
      if entryChangedB acc.estado nome lms && env.fetchOk nome then
        insertA acc.estado nome lms
      else acc.estado :=
  procEntry_estado env acc (nome, lms)

/-! ### Claim C5 -/

/-- Claim C5, counterexample: an entry that is present in SyncState with
a recorded timestamp that does not parse is re-fetched (the code treats
it as changed), although the claim's condition — absent, or remote parses
strictly newer than the recorded one — is false for it. -/
theorem unparseable_recorded_still_fetched :
    let acc : LoopAcc :=
      ⟨[("a.csv", "notadate")], false, false,
        { stateFile := none, dbExists := false, tables := [], modelArtifact := none,
          rawFiles := [] }, [], []⟩
    let env : Env :=
      { remote := [("a.csv", "2024-01-02 03:04")]
        fetchOk := fun _ => true
        fetchedDf := fun _ => none
        storeOk := fun _ => true
        trainOk := true }
    (procEntry env acc ("a.csv", "2024-01-02 03:04")).fetchAttempts = ["a.csv"] ∧
    lookupA acc.estado "a.csv" ≠ none ∧
    claimChangedB acc.estado "a.csv" "2024-01-02 03:04" = false := by
  decide

/-- Claim C5, amended: an entry is fetched iff its remote timestamp
parses and it is absent from SyncState, or its recorded timestamp does
not parse, or the remote timestamp is strictly newer than the recorded
one; in particular an entry whose remote timestamp equals its recorded
timestamp is never re-fetched. -/
theorem fetch_iff_amended_condition (env : Env) (acc : LoopAcc) (nome lms : String) :
    (procEntry env acc (nome, lms)).fetchAttempts =
      acc.fetchAttempts ++ (if amendedChangedB acc.estado nome lms then [nome] else []) ∧
    entryChangedB acc.estado nome lms = amendedChangedB acc.estado nome lms := by
  have heq : entryChangedB acc.estado nome lms = amendedChangedB acc.estado nome lms := by
    unfold entryChangedB amendedChangedB
    cases hp : parseDT lms with
    | none => simp
    | some dtR =>
      cases hl : lookupA acc.estado nome with
      | none => simp
      | some s => cases hps : parseDT s with
        | none => simp [hps]
        | some dtL => simp [hps]
  exact ⟨by rw [procEntry_attempts, heq], heq⟩

/-! ### Claim C7 -/

/-- Claim C7, counterexample: a changed producao entry whose download
succeeds but whose store step fails still triggers the retraining step
(the stored producao table is unchanged, yet the model artifact is
rebuilt from it), contradicting that retraining runs only when a
producao entry was successfully stored. -/
theorem retrain_runs_despite_store_failure :
    let env : Env :=
      { remote := [("Producao.csv", "2024-01-02 03:04")]
        fetchOk := fun _ => true
        fetchedDf := fun _ => some ⟨["UF", "2019"], [[Cell.cStr "RS", Cell.cInt 7]]⟩
        storeOk := fun _ => false
        trainOk := true }
    let w : World :=
      { stateFile := some []
        dbExists := true
        tables := [("producao", ⟨["Ano", "Quantidade"], [[Cell.cInt 2000, Cell.cInt 5]]⟩)]
        modelArtifact := none
        rawFiles := [] }
    env.storeOk "Producao.csv" = false ∧
    (cycle env w).2.retrainInvoked = true ∧
    lookupA (cycle env w).1.tables "producao" =
      some ⟨["Ano", "Quantidade"], [[Cell.cInt 2000, Cell.cInt 5]]⟩ ∧
    (cycle env w).1.modelArtifact = some [(2000, 5)] ∧
    w.modelArtifact = none := by
  decide

/-- Claim C7, amended: the retraining step is invoked iff at least one
successfully downloaded entry of the cycle belongs to the producao
family, regardless of whether its store step succeeded. -/
theorem retrain_iff_producao_downloaded (env : Env) (w : World) :
    (cycle env w).2.retrainInvoked =
      (cycle env w).2.processed.any isProducaoNome := by
  obtain ⟨h1, h2⟩ :=
    foldl_procEntry_invariants env env.remote (cycleStart w) (by simp [cycleStart])
      (by simp [cycleStart])
  have hca : List.foldl (procEntry env) (cycleStart w) env.remote = cycleAcc env w := rfl
  rw [hca] at h1 h2
  rw [cycle_unfold]
  cases hh : (cycleAcc env w).houve with
  | false =>
    rw [hh] at h2
    have hpnil : (cycleAcc env w).processed = [] := by
      cases hp : (cycleAcc env w).processed with
      | nil => rfl
      | cons a t => rw [hp] at h2; simp at h2
    simp [hpnil]
  | true =>
    cases hpa : (cycleAcc env w).prodAtual with
    | true =>
      rw [hpa] at h1
      simp [← h1]
    | false =>
      rw [hpa] at h1
      simp [← h1]

/-! ### Claim C9 -/

/-- Claim C9, counterexample: a cycle with zero catalog entries (hence
zero changed entries) run while the database file is missing deletes the
persisted SyncState file at cycle start, so the persisted state does not
survive such a cycle unchanged. -/
theorem empty_cycle_deletes_state_when_db_missing :
    let env : Env :=
      { remote := []
        fetchOk := fun _ => true
        fetchedDf := fun _ => none
        storeOk := fun _ => true
        trainOk := true }
    let w : World :=
      { stateFile := some [("x.csv", "2020-01-01 00:00")], dbExists := false, tables := [],
        modelArtifact := none, rawFiles := [] }
    (cycle env w).2.fetchAttempts = [] ∧
    w.stateFile = some [("x.csv", "2020-01-01 00:00")] ∧
    (cycle env w).1.stateFile = none := by
  decide

/-- Claim C9, amended: provided the database and its producao table exist
at cycle start (so no state invalidation fires), a cycle in which no
catalog entry is changed leaves the persisted SyncState, every stored
source-file table (the `users` authentication table is not one) and the
forecast model artifact unchanged. -/
theorem no_change_cycle_preserves_all (env : Env) (w : World)
    (hdb : w.dbExists = true)
    (hpt : (lookupA w.tables "producao").isSome = true)
    (hnc : ∀ p ∈ env.remote, entryChangedB (w.stateFile.getD []) p.1 p.2 = false) :
    (cycle env w).1.stateFile = w.stateFile ∧
    (∀ t, t ≠ "users" → lookupA (cycle env w).1.tables t = lookupA w.tables t) ∧
    (cycle env w).1.modelArtifact = w.modelArtifact := by
  have hstart := cycleStart_eq_of_db w hdb hpt
  have hacc : cycleAcc env w = cycleStart w := by
    unfold cycleAcc
    refine foldl_procEntry_no_change env env.remote (cycleStart w) ?_
    rw [hstart]
    exact hnc
  rw [cycle_unfold, hacc, hstart]
  refine ⟨?_, ?_, ?_⟩
  · simp [criarTabelaUsuarios_stateFile]
  · intro t ht
    simp [criarTabelaUsuarios_tables_ne w t ht]
  · simp [criarTabelaUsuarios_modelArtifact]

/-- Witness for the amended C9 theorem: a one-entry catalog whose remote
timestamp equals the recorded one, over a healthy database. -/
theorem no_change_cycle_preserves_all_witness :
    let env : Env :=
      { remote := [("a.csv", "2024-01-02 03:04")]
        fetchOk := fun _ => true
        fetchedDf := fun _ => none
        storeOk := fun _ => true
        trainOk := true }
    let w : World :=
      { stateFile := some [("a.csv", "2024-01-02 03:04")], dbExists := true,
        tables := [("producao", ⟨["Ano", "Quantidade"], [[Cell.cInt 2000, Cell.cInt 5]]⟩)],
        modelArtifact := some [(2000, 5)], rawFiles := [] }
    (cycle env w).1.stateFile = w.stateFile ∧
    (∀ t, t ≠ "users" → lookupA (cycle env w).1.tables t = lookupA w.tables t) ∧
    (cycle env w).1.modelArtifact = w.modelArtifact :=
  no_change_cycle_preserves_all _ _ (by decide) (by decide) (by decide)

/-! ### Claim C10 -/

/-- Claim C10: a catalog entry whose remote last-modified string does not
parse in the `%Y-%m-%d %H:%M` format is skipped for the whole cycle
(under a healthy database, so no state invalidation fires): it is never
downloaded, never handed to `popular_sqlite`, and its SyncState entry is
left unchanged in the mapping the cycle ends with. -/
theorem unparseable_remote_entry_skipped (env : Env) (w : World) (nome : String)
    (hdb : w.dbExists = true)
    (hpt : (lookupA w.tables "producao").isSome = true)
    (hall : ∀ p ∈ env.remote, p.1 = nome → parseDT p.2 = none) :
    nome ∉ (cycle env w).2.fetchAttempts ∧
    nome ∉ (cycle env w).2.processed ∧
    lookupA ((cycle env w).1.stateFile.getD []) nome = lookupA (w.stateFile.getD []) nome := by
  have hstart := cycleStart_eq_of_db w hdb hpt
  have hfold := foldl_procEntry_skip_key env env.remote (cycleStart w) nome hall
  have hestado : lookupA (cycleAcc env w).estado nome = lookupA (w.stateFile.getD []) nome := by
    rw [show (cycleAcc env w).estado = (env.remote.foldl (procEntry env) (cycleStart w)).estado from rfl,
      hfold.1, hstart]
  have hatt : nome ∉ (cycleAcc env w).fetchAttempts := by
    intro hmem
    have := hfold.2.1.mp hmem
    rw [hstart] at this
    simp at this
  have hproc : nome ∉ (cycleAcc env w).processed := by
    intro hmem
    have := hfold.2.2.mp hmem
    rw [hstart] at this
    simp at this
  rw [cycle_unfold]
  cases hh : (cycleAcc env w).houve with
  | false =>
    refine ⟨by simpa using hatt, by simpa using hproc, ?_⟩
    have hsf : (cycleAcc env w).w.stateFile = w.stateFile := by
      rw [show (cycleAcc env w).w = (env.remote.foldl (procEntry env) (cycleStart w)).w from rfl,
        foldl_procEntry_w_stateFile, hstart]
      exact criarTabelaUsuarios_stateFile w
    simp [hsf]
  | true =>
    cases hpa : (cycleAcc env w).prodAtual with
    | true =>
      refine ⟨by simpa using hatt, by simpa using hproc, ?_⟩
      simpa [treinar_stateFile] using hestado
    | false =>
      refine ⟨by simpa using hatt, by simpa using hproc, ?_⟩
      simpa using hestado

/-- Witness for C10: a catalog with one unparseable-timestamp entry and
one changed entry, over a healthy database; the bad entry is skipped and
its recorded timestamp survives the cycle. -/
theorem unparseable_remote_entry_skipped_witness :
    let env : Env :=
      { remote := [("bad.csv", "garbage"), ("a.csv", "2024-01-02 03:04")]
        fetchOk := fun _ => true
        fetchedDf := fun _ => none
        storeOk := fun _ => true
        trainOk := true }
    let w : World :=
      { stateFile := some [("bad.csv", "2020-01-01 00:00")], dbExists := true,
        tables := [("producao", ⟨["Ano", "Quantidade"], [[Cell.cInt 2000, Cell.cInt 5]]⟩)],
        modelArtifact := none, rawFiles := [] }
    "bad.csv" ∉ (cycle env w).2.fetchAttempts ∧
    "bad.csv" ∉ (cycle env w).2.processed ∧
    lookupA ((cycle env w).1.stateFile.getD []) "bad.csv" =
      lookupA (w.stateFile.getD []) "bad.csv" :=
  unparseable_remote_entry_skipped _ _ "bad.csv" (by decide) (by decide) (by decide)

end Embrapa
